import Mathlib

/-!
Verification of the component-library testing/migration code against its
natural-language specification.  Each definition is a shallow embedding of a
function from the repository's source; the theorems at the end settle the
frozen claims C1..C10.

Sources embedded here:
* `src/cdk/testing/protractor/protractor-element.ts` (`hasClass`, `selectOptions`)
* `src/cdk/testing/testbed/fake-events/event-objects.ts`
  (`createMouseEvent`, `createKeyboardEvent`)
* `src/material/checkbox/checkbox.ts` (`checked` setter, `toggle`, `_getAriaChecked`)
* `src/material/sidenav/testing/sidenav-content-harness.ts` (`MatTooltipHarness`)
* `src/material-experimental/mdc-autocomplete/testing/autocomplete-harness.ts`
  (`MatAutocompleteHarness`)
* `src/cdk/schematics/ng-update/migrations/element-selectors.ts`
  (`ElementSelectorsMigration`)
-/

/-! ## JavaScript string helpers (whitespace splitting, as used by `hasClass`) -/

/-- The characters matched by the JavaScript regular-expression class `\s`
(restricted to the ASCII range; class attributes contain ASCII). -/
def jsIsWhitespace (c : Char) : Bool :=
  c == ' ' || c == '\t' || c == '\n' || c == '\r' || c == '\x0b' || c == '\x0c'

/-- Splitting a character list at every whitespace character.  Composed with a
filter that drops empty pieces (as `hasClass` does), this has the same
observable tokens as JavaScript's `split(/\s+/)`, which splits at maximal
whitespace runs. -/
def splitWsAux : List Char → List Char → List (List Char)
  | [], acc => [acc.reverse]
  | c :: cs, acc =>
    if jsIsWhitespace c then acc.reverse :: splitWsAux cs []
    else splitWsAux cs (c :: acc)

/-- Embeds `ProtractorElement.hasClass` (protractor-element.ts, lines 165-168):
`const classes = (await this.getAttribute('class')) || '';`
`return new Set(classes.split(/\s+/).filter(c => c)).has(name);`
A missing `class` attribute is `none` and is treated as the empty string.  The
function consults only the attribute value, never a native class-list API. -/
def hasClass (classAttr : Option String) (name : String) : Bool :=
  ((splitWsAux (classAttr.getD "").toList []).filter (fun t => !t.isEmpty)).contains
    name.toList

/-- The specification's description of `hasClass`: "splitting the class
attribute on whitespace into a set and testing membership".  Tokens are the
maximal nonempty runs of non-whitespace characters. -/
def wsTokens : List Char → List (List Char)
  | [] => []
  | c :: cs =>
    if jsIsWhitespace c then wsTokens cs
    else (c :: cs.takeWhile (fun d => !jsIsWhitespace d)) ::
      wsTokens (cs.dropWhile (fun d => !jsIsWhitespace d))
termination_by l => l.length
decreasing_by
  all_goals simp only [List.length_cons]
  · exact Nat.lt_succ_of_le (Nat.le_refl _)
  · exact Nat.lt_succ_of_le (List.dropWhile_sublist _).length_le

/-- Spec-side counterpart of `hasClass`, following the specification text. -/
def specHasClass (classAttr : Option String) (name : String) : Bool :=
  (wsTokens (classAttr.getD "").toList).contains name.toList

/-! ## MatCheckbox (checkbox.ts) -/

/-- The part of `MatCheckbox` component state that `checked`, `indeterminate`,
`toggle` and `_getAriaChecked` read or write. -/
structure MatCheckboxState where
  checked : Bool
  indeterminate : Bool
deriving DecidableEq, Repr

/-- Embeds the `checked` setter (checkbox.ts, lines 355-360): the private field
is written only when the new value differs from the current one. -/
def MatCheckbox.setChecked (s : MatCheckboxState) (value : Bool) : MatCheckboxState :=
  if value ≠ s.checked then { s with checked := value } else s

/-- Embeds `MatCheckbox.toggle` (checkbox.ts, lines 502-504):
`this.checked = !this.checked;` -/
def MatCheckbox.toggle (s : MatCheckboxState) : MatCheckboxState :=
  MatCheckbox.setChecked s (!s.checked)

/-- Embeds `MatCheckbox._getAriaChecked` (checkbox.ts, lines 450-456). -/
def MatCheckbox._getAriaChecked (s : MatCheckboxState) : String :=
  if s.checked then "true"
  else if s.indeterminate then "mixed" else "false"

/-! ## Synthetic events (event-objects.ts) -/

/-- The modifier-key flags accepted by the event constructors. -/
structure ModifierKeys where
  control : Bool
  alt : Bool
  shift : Bool
  meta : Bool
deriving DecidableEq, Repr

/-- Observable fields of a synthetic mouse event built by the testbed backend. -/
structure SyntheticMouseEvent where
  eventType : String
  bubbles : Bool
  cancelable : Bool
  screenX : Int
  screenY : Int
  clientX : Int
  clientY : Int
  ctrlKey : Bool
  altKey : Bool
  shiftKey : Bool
  metaKey : Bool
  button : Nat
  buttons : Nat
  defaultPrevented : Bool
deriving DecidableEq, Repr

/-- Embeds `createMouseEvent` (event-objects.ts, lines 18-57): `initMouseEvent`
fills the listed fields (screen coordinates mirror the client coordinates), and
a property-descriptor override then forces `buttons` to read `1`.  A freshly
initialized event has `defaultPrevented` false. -/
def createMouseEvent (type_ : String) (clientX clientY : Int) (button : Nat)
    (modifiers : ModifierKeys) : SyntheticMouseEvent :=
  { eventType := type_
    bubbles := true
    cancelable := true
    screenX := clientX
    screenY := clientY
    clientX := clientX
    clientY := clientY
    ctrlKey := modifiers.control
    altKey := modifiers.alt
    shiftKey := modifiers.shift
    metaKey := modifiers.meta
    button := button
    buttons := 1
    defaultPrevented := false }

/-- Embeds the `preventDefault` override installed on mouse events
(event-objects.ts, lines 51-54): it explicitly defines `defaultPrevented` as
`true` via a property descriptor (then delegates to the original method). -/
def mousePreventDefault (e : SyntheticMouseEvent) : SyntheticMouseEvent :=
  { e with defaultPrevented := true }

/-- Observable fields of a synthetic keyboard event built by the testbed
backend.  Both init branches (`initKeyEvent` / `initKeyboardEvent`) produce the
same observable fields, which are afterwards pinned by descriptor overrides. -/
structure SyntheticKeyboardEvent where
  eventType : String
  bubbles : Bool
  cancelable : Bool
  keyCode : Nat
  key : String
  ctrlKey : Bool
  altKey : Bool
  shiftKey : Bool
  metaKey : Bool
  defaultPrevented : Bool
deriving DecidableEq, Repr

/-- Embeds `createKeyboardEvent` (event-objects.ts, lines 117-178). -/
def createKeyboardEvent (type_ : String) (keyCode : Nat) (key : String)
    (modifiers : ModifierKeys) : SyntheticKeyboardEvent :=
  { eventType := type_
    bubbles := true
    cancelable := true
    keyCode := keyCode
    key := key
    ctrlKey := modifiers.control
    altKey := modifiers.alt
    shiftKey := modifiers.shift
    metaKey := modifiers.meta
    defaultPrevented := false }

/-- Embeds the `preventDefault` override installed on keyboard events
(event-objects.ts, lines 172-175). -/
def keyboardPreventDefault (e : SyntheticKeyboardEvent) : SyntheticKeyboardEvent :=
  { e with defaultPrevented := true }

/-! ## ProtractorElement.selectOptions (protractor-element.ts, lines 184-203) -/

/-- One step of the browser-level action sequence that `selectOptions` issues. -/
inductive SelectAction where
  | clearValue : SelectAction
  | keyDownControl : SelectAction
  | clickOption : Nat → SelectAction
  | keyUpControl : SelectAction
deriving DecidableEq, Repr

/-- The `keyDown(CONTROL); click; keyUp(CONTROL)` bracket issued for one option. -/
def ctrlClickSeq (i : Nat) : List SelectAction :=
  [SelectAction.keyDownControl, SelectAction.clickOption i, SelectAction.keyUpControl]

/-- Embeds `ProtractorElement.selectOptions`: the element has `numOptions`
`option` children; `optionIndexes` are the requested indices.  The JS code
builds `indexes = new Set(optionIndexes)` and, only when
`options.length && indexes.size` are both non-zero, clears the value and then
walks the option positions `0..options.length-1`, control-clicking each
position contained in the set.  (The set is only used for its size and for
membership tests, so it is embedded as emptiness/`contains` on the list.) -/
def selectOptions (numOptions : Nat) (optionIndexes : List Nat) : List SelectAction :=
  if numOptions ≠ 0 ∧ optionIndexes ≠ [] then
    SelectAction.clearValue ::
      ((List.range numOptions).filter (fun i => optionIndexes.contains i)).flatMap ctrlClickSeq
  else []

/-! ## HarnessPredicate (modelled) and the autocomplete harness -/

/-- Modelled from the spec: `HarnessPredicate` from `@angular/cdk/testing` is
not under src/ (only its callers are).  Per the spec it wraps a harness type
with "a set of named predicates"; a harness instance is selected when all
registered checks pass. -/
structure HarnessPredicateM (H : Type) where
  predicates : List (H → Bool)

/-- Modelled from the spec: the final predicate "is the logical AND of all
registered, activated checks". -/
def evaluatePredicate {H : Type} (p : HarnessPredicateM H) (inst : H) : Bool :=
  p.predicates.all (fun f => f inst)

/-- Modelled from the spec: `HarnessPredicate.addOption(name, value, matchFn)`
(from `@angular/cdk/testing`, not under src/) "registers a conditional check
that is skipped entirely when `value` is undefined (absent filter = always
matches) and otherwise requires `matchFn(harnessInstance, value)` to resolve
true".  `none` plays the role of `undefined`. -/
def addOption {H V : Type} (p : HarnessPredicateM H) (name : String)
    (value : Option V) (matchFn : H → V → Bool) : HarnessPredicateM H :=
  match name, value with
  | _, none => p
  | _, some v => { predicates := p.predicates ++ [fun inst => matchFn inst v] }

/-- A filter value that is either a literal string or a regular expression; a
regular expression is modelled by its `test` function. -/
inductive StringOrPattern where
  | lit : String → StringOrPattern
  | pattern : (String → Bool) → StringOrPattern

/-- Modelled from the spec: `HarnessPredicate.stringMatches` (from
`@angular/cdk/testing`, not under src/): "exact match when given a literal
string, regex test when given a pattern". -/
def stringMatches (value : String) (p : StringOrPattern) : Bool :=
  match p with
  | StringOrPattern.lit s => value == s
  | StringOrPattern.pattern test => test value

/-- An option element inside the autocomplete panel, as seen by
`MatOptionHarness` (only its text is filtered on here). -/
structure MatOptionInst where
  text : String
deriving DecidableEq, Repr

/-- An option group element inside the autocomplete panel. -/
structure MatOptgroupInst where
  labelText : String
deriving DecidableEq, Repr

/-- The `OptionHarnessFilters` accepted by `getOptions` (the `ancestor` entry
is supplied by the autocomplete harness itself and is represented by scoping
the query to the panel). -/
structure OptionHarnessFilters where
  text : Option StringOrPattern

/-- The `OptgroupHarnessFilters` accepted by `getOptionGroups`. -/
structure OptgroupHarnessFilters where
  labelText : Option StringOrPattern

/-- The option harness predicate: `MatOptionHarness.with` registers a `text`
string-matching option (mdc-core/testing, outside src/; modelled from the
spec's description of string-matching options). -/
def MatOptionHarness.withFilters (filters : OptionHarnessFilters) :
    HarnessPredicateM MatOptionInst :=
  addOption { predicates := [] } "text" filters.text
    (fun h v => stringMatches h.text v)

/-- The option-group harness predicate, analogous to the option one. -/
def MatOptgroupHarness.withFilters (filters : OptgroupHarnessFilters) :
    HarnessPredicateM MatOptgroupInst :=
  addOption { predicates := [] } "labelText" filters.labelText
    (fun h v => stringMatches h.labelText v)

/-- An overlay panel element as the autocomplete harness observes it: its DOM
id, its `class` attribute, and the option/optgroup elements projected into it. -/
structure AutocompletePanel where
  id : String
  classAttr : String
  optionTexts : List String
  optgroupLabels : List String
deriving DecidableEq, Repr

/-- The document state an autocomplete harness call observes: the trigger
input's `value` property, the trigger's `aria-owns` attribute, and the overlay
panels currently attached to the document root. -/
structure AutocompleteDom where
  value : String
  ariaOwns : Option String
  panels : List AutocompletePanel
deriving Repr

/-- JavaScript template-literal interpolation of an attribute value:
`getAttribute` returns `null` for a missing attribute, and a template literal
renders `null` as the text "null". -/
def jsTemplateOfAttr : Option String → String
  | some s => s
  | none => "null"

/-- Embeds `MatAutocompleteHarness._getPanelSelector` (autocomplete-harness.ts,
lines 113-115): backtick-interpolation of the trigger's current `aria-owns`
attribute after a `#`.  It reads the attribute anew on every call. -/
def MatAutocompleteHarness._getPanelSelector (dom : AutocompleteDom) : String :=
  "#" ++ jsTemplateOfAttr dom.ariaOwns

/-- Resolving an id selector against the document root
(`documentRootLocatorFactory().locatorForOptional`): the first panel whose id
matches, if any. -/
def AutocompleteDom.findPanel (dom : AutocompleteDom) (selector : String) :
    Option AutocompletePanel :=
  dom.panels.find? (fun p => ("#" ++ p.id) == selector)

/-- Embeds `MatAutocompleteHarness._getPanel` (autocomplete-harness.ts, lines
106-110): re-resolves the panel selector on each call because "the
autocomplete's panel ID can changed". -/
def MatAutocompleteHarness._getPanel (dom : AutocompleteDom) :
    Option AutocompletePanel :=
  dom.findPanel (MatAutocompleteHarness._getPanelSelector dom)

/-- Embeds `MatAutocompleteHarness.isOpen` (autocomplete-harness.ts, lines
100-103): `!!panel && panel.hasClass('mat-mdc-autocomplete-visible')`, reusing
the `hasClass` embedding. -/
def MatAutocompleteHarness.isOpen (dom : AutocompleteDom) : Bool :=
  match MatAutocompleteHarness._getPanel dom with
  | some panel => hasClass (some panel.classAttr) "mat-mdc-autocomplete-visible"
  | none => false

/-- Embeds `MatAutocompleteHarness.getOptions` (autocomplete-harness.ts, lines
72-78): all options underneath the panel that the current `aria-owns` selector
resolves to, filtered by the option predicate; an unresolved ancestor selector
scopes the query to nothing. -/
def MatAutocompleteHarness.getOptions (dom : AutocompleteDom)
    (filters : OptionHarnessFilters) : List MatOptionInst :=
  match MatAutocompleteHarness._getPanel dom with
  | some panel =>
    (panel.optionTexts.map MatOptionInst.mk).filter
      (evaluatePredicate (MatOptionHarness.withFilters filters))
  | none => []

/-- Embeds `MatAutocompleteHarness.getOptionGroups` (autocomplete-harness.ts,
lines 81-87). -/
def MatAutocompleteHarness.getOptionGroups (dom : AutocompleteDom)
    (filters : OptgroupHarnessFilters) : List MatOptgroupInst :=
  match MatAutocompleteHarness._getPanel dom with
  | some panel =>
    (panel.optgroupLabels.map MatOptgroupInst.mk).filter
      (evaluatePredicate (MatOptgroupHarness.withFilters filters))
  | none => []

/-- `JSON.stringify` of an `OptionHarnessFilters` object, as it appears in the
`selectOption` error message: `JSON.stringify({})` is `"\x7b\x7d"`, a string
filter serializes as a JSON field, and a `RegExp` value serializes as an empty
object.  (Escaping of special characters inside the string is not modelled.) -/
def stringifyOptionFilters (filters : OptionHarnessFilters) : String :=
  match filters.text with
  | none => "\x7b\x7d"
  | some (StringOrPattern.lit s) => "\x7b\"text\":\"" ++ s ++ "\"\x7d"
  | some (StringOrPattern.pattern _) => "\x7b\"text\":\x7b\x7d\x7d"

/-- Embeds `MatAutocompleteHarness.selectOption` (autocomplete-harness.ts,
lines 90-97): focus the input (a no-op on the static document state modelled
here), fetch the matching options, throw a descriptive `Error` when none
match, otherwise click the first match (represented by returning it). -/
def MatAutocompleteHarness.selectOption (dom : AutocompleteDom)
    (filters : OptionHarnessFilters) : Except String MatOptionInst :=
  match MatAutocompleteHarness.getOptions dom filters with
  | [] => Except.error
      ("Could not find a mat-option matching " ++ stringifyOptionFilters filters)
  | o :: _ => Except.ok o

/-- The autocomplete harness filters (`AutocompleteHarnessFilters`): an
optional `value` filter. -/
structure AutocompleteHarnessFilters where
  value : Option StringOrPattern

/-- Embeds `MatAutocompleteHarness.with` (autocomplete-harness.ts, lines
34-38): registers the `value` option against `getValue()` (the trigger input's
`value` property) using `HarnessPredicate.stringMatches`. -/
def MatAutocompleteHarness.withFilters (options : AutocompleteHarnessFilters) :
    HarnessPredicateM AutocompleteDom :=
  addOption { predicates := [] } "value" options.value
    (fun h v => stringMatches h.value v)

/-! ## MatTooltipHarness (sidenav-content-harness.ts, lines 278-319) -/

/-- The document state a tooltip harness call observes: the text of the
`.mat-tooltip` overlay panel when one is attached, `none` otherwise. -/
structure TooltipDom where
  panelText : Option String
deriving DecidableEq, Repr

/-- The harness error taxonomy relevant here: a required single-match query
that found nothing. -/
inductive HarnessError where
  | notFound : String → HarnessError
deriving DecidableEq, Repr

/-- `locatorForOptional`: resolves to the element when present, `null`
otherwise — it never fails. -/
def locatorForOptional {α : Type} (found : Option α) : Option α := found

/-- Embeds `MatTooltipHarness.isOpen` (lines 310-312): `!!(await
this._optionalPanel())`. -/
def MatTooltipHarness.isOpen (dom : TooltipDom) : Bool :=
  (locatorForOptional dom.panelText).isSome

/-- Embeds `MatTooltipHarness.getTooltipText` (lines 315-318):
`panel ? panel.text() : ''`.  The result type records that the method can in
principle surface a harness error, and the definition shows it never does. -/
def MatTooltipHarness.getTooltipText (dom : TooltipDom) : Except HarnessError String :=
  match locatorForOptional dom.panelText with
  | some t => Except.ok t
  | none => Except.ok ""

/-! ## ElementSelectorsMigration (element-selectors.ts) -/

/-- Whether `pat` occurs in `content` starting at position `i`. -/
def occursAt (content pat : List Char) (i : Nat) : Bool :=
  pat.isPrefixOf (content.drop i)

/-- Modelled from the spec: `findAllSubstringIndices` from
`cdk/schematics/ng-update/typescript/literal.ts` is not under src/.  Section 6
of the specification requires each visited resource to yield "a sequence of
non-overlapping (start-offset, delete-length, insert-text) edits", so the
substring scan is modelled as the greedy left-to-right search that reports an
occurrence and resumes past its end (`i + pat.length`): the reported indices
are ascending and pairwise separated by at least the search string's length.
The `fuel` argument only bounds the recursion structurally; the scan advances
by at least one position per step on a non-empty search string, so
`content.length + 1` steps always suffice.  (Upgrade-data selectors are never
empty; on the degenerate empty search string the scan merely stops when the
fuel runs out.) -/
def findIndicesFromFuel (content pat : List Char) : Nat → Nat → List Nat
  | 0, _ => []
  | fuel + 1, i =>
    if i < content.length then
      if occursAt content pat i then
        i :: findIndicesFromFuel content pat fuel (i + pat.length)
      else findIndicesFromFuel content pat fuel (i + 1)
    else []

/-- Modelled from the spec: the entry point of the non-overlapping substring
scan (see `findIndicesFromFuel`). -/
def findAllSubstringIndices (content pat : List Char) : List Nat :=
  findIndicesFromFuel content pat (content.length + 1) 0

/-- One entry of the element-selector upgrade data: the outdated selector and
its replacement. -/
structure ElementSelectorUpgradeData where
  replace : String
  replaceWith : String
deriving DecidableEq, Repr

/-- A resolved template or stylesheet resource: its file, its text content and
the offset of that content within the file. -/
structure ResolvedResource where
  filePath : String
  content : String
  start : Nat
deriving DecidableEq, Repr

/-- A recorded text edit: `fileSystem.edit(filePath).remove(start,
length).insertRight(start, text)` (the "declarative edit, late apply" form). -/
structure Edit where
  filePath : String
  start : Nat
  deleteLength : Nat
  insertText : String
deriving DecidableEq, Repr

/-- Embeds `ElementSelectorsMigration._replaceSelector` (element-selectors.ts,
lines 73-78): remove `data.replace.length` characters at `start` and insert
`data.replaceWith` at the same offset. -/
def _replaceSelector (filePath : String) (start : Nat)
    (data : ElementSelectorUpgradeData) : Edit :=
  { filePath := filePath
    start := start
    deleteLength := data.replace.length
    insertText := data.replaceWith }

/-- Embeds `ElementSelectorsMigration.visitTemplate` (element-selectors.ts,
lines 42-48); `visitStylesheet` (lines 50-56) and the string-literal visitor
(lines 58-71) run the same substring scan and call the same
`_replaceSelector`.  For each upgrade-data entry, every occurrence of the old
selector is mapped to its absolute offset `template.start + offset` and turned
into one edit. -/
def visitTemplate (data : List ElementSelectorUpgradeData)
    (template : ResolvedResource) : List Edit :=
  data.flatMap (fun selector =>
    (findAllSubstringIndices template.content.toList selector.replace.toList).map
      (fun offset => _replaceSelector template.filePath (template.start + offset) selector))

/-- Whether two edits overlap: they target the same file and their deleted
offset ranges intersect. -/
def editsOverlap (e1 e2 : Edit) : Bool :=
  e1.filePath == e2.filePath &&
    decide (max e1.start e2.start <
      min (e1.start + e1.deleteLength) (e2.start + e2.deleteLength))

/-! ## Auxiliary lemmas -/

/-- Filtering the empty pieces out of the char-by-char whitespace split leaves
exactly the maximal nonempty whitespace-delimited tokens. -/
theorem splitWsAux_filter (l : List Char) : ∀ acc : List Char,
    (splitWsAux l acc).filter (fun t => !t.isEmpty) =
      if acc.isEmpty then wsTokens l
      else (acc.reverse ++ l.takeWhile (fun d => !jsIsWhitespace d)) ::
        wsTokens (l.dropWhile (fun d => !jsIsWhitespace d)) := by
  induction l with
  | nil =>
    intro acc
    cases acc with
    | nil => simp [splitWsAux, wsTokens]
    | cons a as =>
      have hne : (as.reverse ++ [a]).isEmpty = false := by simp [List.isEmpty_iff]
      simp [splitWsAux, wsTokens, List.filter, hne]
  | cons c cs ih =>
    intro acc
    by_cases hc : jsIsWhitespace c
    · cases acc with
      | nil =>
        simp [splitWsAux, hc, wsTokens, ih [], List.takeWhile_cons, List.dropWhile_cons]
      | cons a as =>
        simp [splitWsAux, hc, wsTokens, ih [], List.filter, List.takeWhile_cons,
          List.dropWhile_cons]
    · have h1 := ih (c :: acc)
      simp only [splitWsAux, hc, if_neg, Bool.false_eq_true, ite_false] at h1 ⊢
      rw [h1]
      cases acc with
      | nil =>
        simp [wsTokens, hc, List.takeWhile_cons, List.dropWhile_cons]
      | cons a as =>
        simp [List.takeWhile_cons, List.dropWhile_cons, hc]

/-- A flat-mapped block is an infix of the flattened list whenever its seed is
a member. -/
theorem flatMap_infix {α β : Type} (l : List α) (f : α → List β) (a : α)
    (h : a ∈ l) : (f a).IsInfix (l.flatMap f) := by
  induction l with
  | nil => cases h
  | cons x xs ih =>
    rcases List.mem_cons.mp h with rfl | h2
    · exact ⟨[], xs.flatMap f, by simp⟩
    · obtain ⟨s, t, hst⟩ := ih h2
      exact ⟨f x ++ s, t, by simp [← hst, List.append_assoc]⟩

/-- A non-empty pattern can only occur at positions strictly inside the
content. -/
theorem occursAt_lt_length (content pat : List Char) (i : Nat)
    (hne : pat ≠ []) (h : occursAt content pat i = true) : i < content.length := by
  by_contra hge
  push_neg at hge
  have hdrop : content.drop i = [] := List.drop_eq_nil_of_le hge
  rw [occursAt, hdrop] at h
  have := List.isPrefixOf_iff_prefix.mp h
  exact hne (List.prefix_nil.mp this)

/-! ## Claim theorems -/

/-- C3: `ProtractorElement.hasClass` returns true exactly when the name is a
member of the set obtained by splitting the element's class attribute on
whitespace (a missing class attribute counting as the empty string); it is a
function of the class attribute alone and consults no native class-list API. -/
theorem C3_hasClass_whitespace_membership (classAttr : Option String) (name : String) :
    hasClass classAttr name = specHasClass classAttr name := by
  unfold hasClass specHasClass
  rw [splitWsAux_filter]
  simp

/-- C3 witness: evaluation at a concrete attribute and class name. -/
theorem C3_hasClass_witness :
    hasClass (some " foo  bar ") "bar" = specHasClass (some " foo  bar ") "bar" :=
  C3_hasClass_whitespace_membership (some " foo  bar ") "bar"

/-- C9: `_getAriaChecked` returns "true" whenever the checkbox is checked
(checked takes precedence over indeterminate), "mixed" exactly when unchecked
and indeterminate, and "false" otherwise. -/
theorem C9_getAriaChecked_cases :
    (∀ i : Bool, MatCheckbox._getAriaChecked ⟨true, i⟩ = "true") ∧
    (∀ c i : Bool, (MatCheckbox._getAriaChecked ⟨c, i⟩ = "mixed" ↔ (c = false ∧ i = true))) ∧
    (∀ c i : Bool, (MatCheckbox._getAriaChecked ⟨c, i⟩ = "false" ↔ (c = false ∧ i = false))) := by
  refine ⟨fun i => ?_, fun c i => ?_, fun c i => ?_⟩ <;>
    first
    | rfl
    | (cases c <;> cases i <;> decide)

/-- C7: toggling a checkbox twice restores the original state (hence the
observable checked presentation), and from an unchecked, non-indeterminate
checkbox one `toggle` yields checked true, a second yields false again. -/
theorem C7_toggle_involution :
    (∀ s : MatCheckboxState, MatCheckbox.toggle (MatCheckbox.toggle s) = s) ∧
    (∀ s : MatCheckboxState, s.checked = false → s.indeterminate = false →
      (MatCheckbox.toggle s).checked = true ∧
        (MatCheckbox.toggle (MatCheckbox.toggle s)).checked = false) := by
  constructor
  · intro s
    cases s with
    | mk c i => cases c <;> rfl
  · intro s h1 h2
    cases s with
    | mk c i =>
      cases c
      · exact ⟨rfl, rfl⟩
      · cases h1

/-- C7 witness: the end-to-end scenario at a concrete unchecked,
non-indeterminate checkbox. -/
theorem C7_toggle_witness :
    ((⟨false, false⟩ : MatCheckboxState).checked = false) ∧
    (MatCheckbox.toggle ⟨false, false⟩).checked = true ∧
    (MatCheckbox.toggle (MatCheckbox.toggle ⟨false, false⟩)).checked = false :=
  ⟨rfl, (C7_toggle_involution.2 ⟨false, false⟩ rfl rfl).1,
    (C7_toggle_involution.2 ⟨false, false⟩ rfl rfl).2⟩

/-- C6: every synthetic mouse event reads `buttons = 1` after creation, and
for synthetic mouse and keyboard events `preventDefault()` makes
`defaultPrevented` read true afterwards (it reads false at creation, so the
explicit descriptor override is what sets it). -/
theorem C6_synthetic_event_flags :
    (∀ (t : String) (x y : Int) (b : Nat) (m : ModifierKeys),
      (createMouseEvent t x y b m).buttons = 1) ∧
    (∀ (t : String) (x y : Int) (b : Nat) (m : ModifierKeys),
      (createMouseEvent t x y b m).defaultPrevented = false ∧
        (mousePreventDefault (createMouseEvent t x y b m)).defaultPrevented = true) ∧
    (∀ (t : String) (kc : Nat) (k : String) (m : ModifierKeys),
      (createKeyboardEvent t kc k m).defaultPrevented = false ∧
        (keyboardPreventDefault (createKeyboardEvent t kc k m)).defaultPrevented = true) :=
  ⟨fun _ _ _ _ _ => rfl, fun _ _ _ _ _ => ⟨rfl, rfl⟩, fun _ _ _ _ => ⟨rfl, rfl⟩⟩

/-- C10: when no tooltip panel is attached, `getTooltipText` returns the empty
string and `isOpen` returns false; `getTooltipText` never surfaces a not-found
error (its result is `ok` on every document state). -/
theorem C10_tooltip_closed_behavior (dom : TooltipDom) :
    ((MatTooltipHarness.getTooltipText dom).isOk = true) ∧
    (dom.panelText = none →
      MatTooltipHarness.getTooltipText dom = Except.ok "" ∧
        MatTooltipHarness.isOpen dom = false) := by
  constructor
  · cases h : dom.panelText <;>
      simp [MatTooltipHarness.getTooltipText, locatorForOptional, h, Except.isOk,
        Except.toBool]
  · intro h
    simp [MatTooltipHarness.getTooltipText, MatTooltipHarness.isOpen,
      locatorForOptional, h]

/-- C10 witness: a concrete document with no tooltip panel. -/
theorem C10_tooltip_witness :
    ((MatTooltipHarness.getTooltipText ⟨none⟩).isOk = true) ∧
    MatTooltipHarness.getTooltipText ⟨none⟩ = Except.ok "" ∧
    MatTooltipHarness.isOpen ⟨none⟩ = false :=
  ⟨(C10_tooltip_closed_behavior ⟨none⟩).1,
    ((C10_tooltip_closed_behavior ⟨none⟩).2 rfl).1,
    ((C10_tooltip_closed_behavior ⟨none⟩).2 rfl).2⟩

/-- C1 counterexample: calling `selectOptions` with an empty list of indices
performs no action at all — in particular the current selection is NOT
cleared, contradicting the claim that every call first clears it. -/
theorem C1_empty_indices_counterexample :
    selectOptions 3 [] = [] ∧ SelectAction.clearValue ∉ selectOptions 3 [] := by
  constructor
  · rfl
  · decide

/-- C1 (amended): when the element has at least one option and at least one
index is given, the selection is first cleared, every requested in-range index
is clicked exactly while the control key is held (regardless of selection
mode), and the clicked indices are exactly the given in-range ones; calls with
no options or no indices do nothing, and out-of-range indices produce no
click. -/
theorem C1_selectOptions_amended (n : Nat) (idxs : List Nat)
    (hn : n ≠ 0) (hi : idxs ≠ []) :
    (selectOptions n idxs).head? = some SelectAction.clearValue ∧
    (∀ i : Nat, SelectAction.clickOption i ∈ selectOptions n idxs ↔
      (i < n ∧ idxs.contains i = true)) ∧
    (∀ i : Nat, i < n → idxs.contains i = true →
      (ctrlClickSeq i).IsInfix (selectOptions n idxs)) := by
  have hsel : selectOptions n idxs =
      SelectAction.clearValue ::
        ((List.range n).filter (fun i => idxs.contains i)).flatMap ctrlClickSeq := by
    simp [selectOptions, hn, hi]
  refine ⟨by rw [hsel]; rfl, fun i => ?_, fun i hlt hmem => ?_⟩
  · rw [hsel]
    simp [List.mem_flatMap, List.mem_filter, List.mem_range, ctrlClickSeq]
  · rw [hsel]
    have h1 : i ∈ (List.range n).filter (fun j => idxs.contains j) :=
      List.mem_filter.mpr ⟨List.mem_range.mpr hlt, hmem⟩
    obtain ⟨s, t, hst⟩ := flatMap_infix _ ctrlClickSeq i h1
    exact ⟨SelectAction.clearValue :: s, t,
      congrArg (List.cons SelectAction.clearValue) hst⟩

/-- C1 witness: a select with three options, requesting indices 0 and 2. -/
theorem C1_selectOptions_witness :
    (selectOptions 3 [0, 2]).head? = some SelectAction.clearValue ∧
    (SelectAction.clickOption 2 ∈ selectOptions 3 [0, 2] ↔
      (2 < 3 ∧ [0, 2].contains 2 = true)) ∧
    (ctrlClickSeq 0).IsInfix (selectOptions 3 [0, 2]) :=
  ⟨(C1_selectOptions_amended 3 [0, 2] (by decide) (by decide)).1,
    (C1_selectOptions_amended 3 [0, 2] (by decide) (by decide)).2.1 2,
    (C1_selectOptions_amended 3 [0, 2] (by decide) (by decide)).2.2 0 (by decide) (by decide)⟩

/-- C2: an `addOption` check with an undefined (`none`) value leaves the
predicate unaffected; with a present value the instance is selected exactly
when the previous checks pass and `matchFn` returns true.  String-matching
options match a literal string only on exact equality and a pattern exactly
when its test succeeds — instantiated on the autocomplete's `value` option
(`MatAutocompleteHarness.with`). -/
theorem C2_addOption_conditional_string_matching :
    (∀ (H V : Type) (p : HarnessPredicateM H) (name : String)
        (matchFn : H → V → Bool) (inst : H),
      evaluatePredicate (addOption p name none matchFn) inst = evaluatePredicate p inst) ∧
    (∀ (H V : Type) (p : HarnessPredicateM H) (name : String)
        (matchFn : H → V → Bool) (v : V) (inst : H),
      evaluatePredicate (addOption p name (some v) matchFn) inst =
        (evaluatePredicate p inst && matchFn inst v)) ∧
    (∀ (s value : String),
      stringMatches value (StringOrPattern.lit s) = (value == s)) ∧
    (∀ (test : String → Bool) (value : String),
      stringMatches value (StringOrPattern.pattern test) = test value) ∧
    (∀ dom : AutocompleteDom,
      evaluatePredicate (MatAutocompleteHarness.withFilters ⟨none⟩) dom = true) ∧
    (∀ (s : String) (dom : AutocompleteDom),
      evaluatePredicate
        (MatAutocompleteHarness.withFilters ⟨some (StringOrPattern.lit s)⟩) dom =
        (dom.value == s)) ∧
    (∀ (test : String → Bool) (dom : AutocompleteDom),
      evaluatePredicate
        (MatAutocompleteHarness.withFilters ⟨some (StringOrPattern.pattern test)⟩) dom =
        test dom.value) := by
  refine ⟨fun H V p name f inst => rfl, fun H V p name f v inst => ?_,
    fun s value => rfl, fun test value => rfl, fun dom => rfl,
    fun s dom => ?_, fun test dom => ?_⟩
  · simp [evaluatePredicate, addOption, List.all_append]
  · simp [MatAutocompleteHarness.withFilters, evaluatePredicate, addOption, stringMatches]
  · simp [MatAutocompleteHarness.withFilters, evaluatePredicate, addOption, stringMatches]

/-- C4: `_getPanelSelector` is computed from the trigger's current `aria-owns`
attribute on every call, and each panel-addressing operation (`isOpen`,
`getOptions`, `getOptionGroups`, `selectOption`) resolves the panel through
that freshly computed selector: after the attribute changes to `newOwns`
(panels unchanged), the next call observes `newOwns`, so nothing is cached
across calls. -/
theorem C4_panel_selector_recomputed_per_call :
    (∀ dom : AutocompleteDom,
      MatAutocompleteHarness._getPanelSelector dom =
        "#" ++ jsTemplateOfAttr dom.ariaOwns) ∧
    (∀ (dom : AutocompleteDom) (newOwns : Option String),
      MatAutocompleteHarness._getPanelSelector { dom with ariaOwns := newOwns } =
        "#" ++ jsTemplateOfAttr newOwns) ∧
    (∀ (dom : AutocompleteDom) (newOwns : Option String),
      MatAutocompleteHarness.isOpen { dom with ariaOwns := newOwns } =
        (match dom.findPanel ("#" ++ jsTemplateOfAttr newOwns) with
         | some panel => hasClass (some panel.classAttr) "mat-mdc-autocomplete-visible"
         | none => false)) ∧
    (∀ (dom : AutocompleteDom) (newOwns : Option String) (filters : OptionHarnessFilters),
      MatAutocompleteHarness.getOptions { dom with ariaOwns := newOwns } filters =
        (match dom.findPanel ("#" ++ jsTemplateOfAttr newOwns) with
         | some panel => (panel.optionTexts.map MatOptionInst.mk).filter
             (evaluatePredicate (MatOptionHarness.withFilters filters))
         | none => [])) ∧
    (∀ (dom : AutocompleteDom) (newOwns : Option String) (filters : OptgroupHarnessFilters),
      MatAutocompleteHarness.getOptionGroups { dom with ariaOwns := newOwns } filters =
        (match dom.findPanel ("#" ++ jsTemplateOfAttr newOwns) with
         | some panel => (panel.optgroupLabels.map MatOptgroupInst.mk).filter
             (evaluatePredicate (MatOptgroupHarness.withFilters filters))
         | none => [])) ∧
    (∀ (dom : AutocompleteDom) (newOwns : Option String) (filters : OptionHarnessFilters),
      MatAutocompleteHarness.selectOption { dom with ariaOwns := newOwns } filters =
        (match (match dom.findPanel ("#" ++ jsTemplateOfAttr newOwns) with
                | some panel => (panel.optionTexts.map MatOptionInst.mk).filter
                    (evaluatePredicate (MatOptionHarness.withFilters filters))
                | none => []) with
         | [] => Except.error
             ("Could not find a mat-option matching " ++ stringifyOptionFilters filters)
         | o :: _ => Except.ok o)) :=
  ⟨fun _ => rfl, fun _ _ => rfl, fun _ _ => rfl,
    fun _ _ _ => rfl, fun _ _ _ => rfl, fun _ _ _ => rfl⟩

/-- C5: `selectOption` with a filter that matches no option surfaces an error
whose message names the filter that produced no matches (never a silent
no-op); with at least one match it clicks the first matching option. -/
theorem C5_selectOption_first_match_or_error (dom : AutocompleteDom)
    (filters : OptionHarnessFilters) :
    (MatAutocompleteHarness.selectOption dom filters =
      (match MatAutocompleteHarness.getOptions dom filters with
       | [] => Except.error
           ("Could not find a mat-option matching " ++ stringifyOptionFilters filters)
       | o :: _ => Except.ok o)) ∧
    ((MatAutocompleteHarness.selectOption dom filters).isOk =
      !(MatAutocompleteHarness.getOptions dom filters).isEmpty) := by
  constructor
  · rfl
  · cases h : MatAutocompleteHarness.getOptions dom filters <;>
      simp [MatAutocompleteHarness.selectOption, h, Except.isOk, Except.toBool]

/-- Every index reported by the substring scan lies at or after the scan
position and is a genuine occurrence of the search string. -/
theorem findIndicesFromFuel_sound (content pat : List Char) :
    ∀ (fuel i idx : Nat), idx ∈ findIndicesFromFuel content pat fuel i →
      i ≤ idx ∧ occursAt content pat idx = true := by
  intro fuel
  induction fuel with
  | zero =>
    intro i idx h
    simp [findIndicesFromFuel] at h
  | succ fuel ih =>
    intro i idx h
    by_cases h1 : i < content.length
    · by_cases h2 : occursAt content pat i = true
      · rw [findIndicesFromFuel, if_pos h1, if_pos h2] at h
        rcases List.mem_cons.mp h with rfl | h3
        · exact ⟨Nat.le_refl _, h2⟩
        · obtain ⟨h4, h5⟩ := ih _ _ h3
          exact ⟨by omega, h5⟩
      · rw [findIndicesFromFuel, if_pos h1, if_neg h2] at h
        obtain ⟨h4, h5⟩ := ih _ _ h
        exact ⟨by omega, h5⟩
    · rw [findIndicesFromFuel, if_neg h1] at h
      simp at h

/-- The indices reported by the substring scan are pairwise separated by at
least the search string's length: the matched ranges do not overlap. -/
theorem findIndicesFromFuel_pairwise (content pat : List Char) :
    ∀ (fuel i : Nat),
      List.Pairwise (fun a b => a + pat.length ≤ b)
        (findIndicesFromFuel content pat fuel i) := by
  intro fuel
  induction fuel with
  | zero => intro i; simp [findIndicesFromFuel]
  | succ fuel ih =>
    intro i
    by_cases h1 : i < content.length
    · by_cases h2 : occursAt content pat i = true
      · rw [findIndicesFromFuel, if_pos h1, if_pos h2]
        refine List.Pairwise.cons ?_ (ih _)
        intro b hb
        exact (findIndicesFromFuel_sound content pat fuel _ b hb).1
      · rw [findIndicesFromFuel, if_pos h1, if_neg h2]
        exact ih _
    · rw [findIndicesFromFuel, if_neg h1]
      exact List.Pairwise.nil

/-- Given enough fuel, every occurrence of a non-empty search string at or
after the scan position overlaps some reported occurrence (so no occurrence
is skipped except where it overlaps a range already matched). -/
theorem findIndicesFromFuel_covers (content pat : List Char) (hne : pat ≠ []) :
    ∀ (fuel i idx : Nat), content.length ≤ i + fuel → i ≤ idx →
      occursAt content pat idx = true →
      ∃ r ∈ findIndicesFromFuel content pat fuel i,
        r ≤ idx ∧ idx < r + pat.length := by
  have hpos : 0 < pat.length := List.length_pos.mpr hne
  intro fuel
  induction fuel with
  | zero =>
    intro i idx hfuel hle hocc
    exact absurd (occursAt_lt_length content pat idx hne hocc) (by omega)
  | succ fuel ih =>
    intro i idx hfuel hle hocc
    have hlt : idx < content.length := occursAt_lt_length content pat idx hne hocc
    have h1 : i < content.length := by omega
    by_cases h2 : occursAt content pat i = true
    · rw [findIndicesFromFuel, if_pos h1, if_pos h2]
      by_cases h3 : idx < i + pat.length
      · exact ⟨i, List.mem_cons_self _ _, hle, h3⟩
      · obtain ⟨r, hr, hr2⟩ := ih (i + pat.length) idx (by omega) (by omega) hocc
        exact ⟨r, List.mem_cons_of_mem _ hr, hr2⟩
    · rw [findIndicesFromFuel, if_pos h1, if_neg h2]
      have hne2 : idx ≠ i := by
        intro heq
        rw [heq] at hocc
        exact h2 hocc
      exact ih (i + 1) idx (by omega) (by omega) hocc

/-- C8: for a non-empty outdated selector, the migration produces exactly one
edit per occurrence the scan visits — deleting the old selector's length at
the absolute offset (resource start plus substring index) and inserting the
replacement selector at that same offset; every reported index is a genuine
occurrence, every occurrence of the selector overlaps a reported one, and the
produced edits are pairwise non-overlapping. -/
theorem C8_edit_per_occurrence (sel : ElementSelectorUpgradeData)
    (rsrc : ResolvedResource) (hne : sel.replace.toList ≠ []) :
    (visitTemplate [sel] rsrc =
      (findAllSubstringIndices rsrc.content.toList sel.replace.toList).map
        (fun idx =>
          ⟨rsrc.filePath, rsrc.start + idx, sel.replace.length, sel.replaceWith⟩)) ∧
    (∀ idx ∈ findAllSubstringIndices rsrc.content.toList sel.replace.toList,
      occursAt rsrc.content.toList sel.replace.toList idx = true) ∧
    (∀ idx : Nat, occursAt rsrc.content.toList sel.replace.toList idx = true →
      ∃ r ∈ findAllSubstringIndices rsrc.content.toList sel.replace.toList,
        r ≤ idx ∧ idx < r + sel.replace.toList.length) ∧
    List.Pairwise (fun e1 e2 => editsOverlap e1 e2 = false)
      (visitTemplate [sel] rsrc) := by
  have hmap : visitTemplate [sel] rsrc =
      (findAllSubstringIndices rsrc.content.toList sel.replace.toList).map
        (fun idx =>
          ⟨rsrc.filePath, rsrc.start + idx, sel.replace.length, sel.replaceWith⟩) := by
    simp [visitTemplate, _replaceSelector]
  refine ⟨hmap, ?_, ?_, ?_⟩
  · intro idx h
    exact (findIndicesFromFuel_sound _ _ _ _ _ h).2
  · intro idx hocc
    exact findIndicesFromFuel_covers _ _ hne _ 0 idx (by omega) (Nat.zero_le _) hocc
  · rw [hmap, List.pairwise_map]
    refine (findIndicesFromFuel_pairwise _ _ _ _).imp ?_
    intro a b hab
    simp only [editsOverlap, beq_self_eq_true, Bool.true_and,
      decide_eq_false_iff_not, not_lt]
    have hlen : sel.replace.length = sel.replace.toList.length := rfl
    omega

/-- C8 witness: selector "ab" replaced by "c" in content "abxab" at resource
offset 5 — the scan reports a genuine occurrence at 0 and the produced edits
are pairwise non-overlapping. -/
theorem C8_edit_witness :
    occursAt "abxab".toList "ab".toList 0 = true ∧
    List.Pairwise (fun e1 e2 => editsOverlap e1 e2 = false)
      (visitTemplate [⟨"ab", "c"⟩] ⟨"t.html", "abxab", 5⟩) :=
  ⟨(C8_edit_per_occurrence ⟨"ab", "c"⟩ ⟨"t.html", "abxab", 5⟩ (by decide)).2.1 0
      (by decide),
    (C8_edit_per_occurrence ⟨"ab", "c"⟩ ⟨"t.html", "abxab", 5⟩ (by decide)).2.2.2⟩
